import Mathlib

/-!
Verification development for the Rehearsal live-conversation frontend.

The definitions below are a shallow embedding of the audio/session core of
the repository: the inbound playback scheduler (playAudioChunk), the
transcript reconciler (onTranscriptUpdate / onTurnComplete), the outbound
frame stream (processor.onaudioprocess forwarding through the session
promise), the resource teardown (cleanupAudioAndSession), the remote-close
handler (onClose), the end-of-conversation flow (handleEndConversation),
the inactivity watchdog (startInactivityTimer and its arming effect), and
the PCM fixed-point conversions (createBlob / decodeAudioData).

Machine-number conventions: audio clock times and normalized samples are
embedded as rationals; the 16-bit wire format is embedded as integers with
explicit reduction modulo 2 ^ 16 where the JavaScript Int16Array store
wraps.
-/

namespace Rehearsal

/-- Speaker tag of a transcript entry, from types.ts: user or npc (the
remote agent). -/
inductive Speaker
  | user
  | npc
deriving DecidableEq, Repr

/-- One transcript entry, from the Transcript interface in types.ts:
speaker, accumulated text, finality flag, and the optional inline image
reference. -/
structure Transcript where
  speaker : Speaker
  text : String
  isFinal : Bool
  imageUrl : Option String := none
deriving DecidableEq, Repr

/-- Session state machine values, from the ConversationStatus enum in
types.ts. -/
inductive ConversationStatus
  | idle
  | generating
  | briefing
  | ready
  | active
  | summarizing
  | pausedForFeedback
  | error
deriving DecidableEq, Repr

/-- Scenario record, from the Scenario interface in types.ts.  Only the
plain string fields are carried: the remaining fields (npcProfile,
conversationStarter, openingLine) are never inspected by the control flow
embedded in this file, which tests scenario presence only. -/
structure ScenarioData where
  locationName : String
  task : String
  sceneDescription : String
deriving DecidableEq, Repr

/-- Transcript reconciliation step, embedding the onTranscriptUpdate
callback (part_000, lines 346-361): if the last entry exists, has the same
speaker as the incoming fragment, and is not final, the fragment text is
concatenated onto it in place; otherwise the fragment is appended as a new
entry. -/
def onTranscriptUpdate (prev : List Transcript) (newTranscript : Transcript) :
    List Transcript :=
  match prev.getLast? with
  | some lastEntry =>
      if lastEntry.speaker = newTranscript.speaker ∧ lastEntry.isFinal = false then
        prev.dropLast ++ [{ lastEntry with text := lastEntry.text ++ newTranscript.text }]
      else
        prev ++ [newTranscript]
  | none => prev ++ [newTranscript]

/-- Turn-boundary handling, embedding the onTurnComplete callback
(part_000, lines 366-368): every current entry is marked final. -/
def onTurnComplete (prev : List Transcript) : List Transcript :=
  prev.map (fun t => { t with isFinal := true })

/-- Playback scheduling recursion, embedding the nextStartTimeRef updates
of playAudioChunk (part_000, lines 117-152).  Each inbound chunk is a pair
of the output-clock reading at scheduling time (audioContext.currentTime)
and the decoded buffer duration.  For each chunk the source computes
nextStartTime := max nextStartTime currentTime, starts the source at that
instant, and then advances nextStartTime by the duration.  The returned
list holds the scheduled start instants in arrival order. -/
def scheduleStarts (nst : ℚ) : List (ℚ × ℚ) → List ℚ
  | [] => []
  | cd :: rest => max nst cd.1 :: scheduleStarts (max nst cd.1 + cd.2) rest

/-- Event observed by the outbound frame path: either the capture
processor hands over a frame (processor.onaudioprocess, part_000, lines
385-392), or the channel-ready promise resolves (the sessionPromise
returned by startConversation, geminiService.ts, lines 160-192). -/
inductive OutboundEvent (α : Type)
  | capture (frame : α)
  | channelReady
deriving DecidableEq, Repr

/-- State of the outbound path.  Each captured frame is passed to
sessionPromise.then, so while the promise is unresolved the continuation
is queued on the promise (pendingThens, in registration order); once it
resolves, queued continuations run in registration order and later ones
run directly, per the ECMAScript job-queue ordering of promise
reactions.  delivered lists the frames handed to
session.sendRealtimeInput, in order. -/
structure OutboundState (α : Type) where
  ready : Bool
  pendingThens : List α
  delivered : List α
deriving DecidableEq, Repr

/-- One step of the outbound path. -/
def outboundStep {α : Type} (s : OutboundState α) : OutboundEvent α → OutboundState α
  | OutboundEvent.capture f =>
      if s.ready then { s with delivered := s.delivered ++ [f] }
      else { s with pendingThens := s.pendingThens ++ [f] }
  | OutboundEvent.channelReady =>
      { ready := true, pendingThens := [], delivered := s.delivered ++ s.pendingThens }

/-- Outbound path run from the initial state (promise unresolved, nothing
queued or delivered). -/
def outboundRun {α : Type} (evs : List (OutboundEvent α)) : OutboundState α :=
  evs.foldl outboundStep ⟨false, [], []⟩

/-- Frames captured along a trace, in capture order. -/
def capturedFrames {α : Type} (evs : List (OutboundEvent α)) : List α :=
  evs.filterMap (fun e =>
    match e with
    | OutboundEvent.capture f => some f
    | OutboundEvent.channelReady => none)

/-- Per-step failure tags of the teardown routine, mirroring the
console.error messages of cleanupAudioAndSession (part_000, lines
155-197). -/
inductive CleanupErr
  | closeLiveSession
  | disconnectScriptProcessor
  | disconnectMediaStreamSource
  | closeInputCtx
  | stopAudioSources
  | closeOutputCtx
deriving DecidableEq, Repr

/-- The mutable refs torn down by cleanupAudioAndSession.  A present
resource that can throw carries a Bool saying whether its teardown call
throws (for the audio contexts: whether the close() promise rejects,
which the source handles with an asynchronous catch).  localStreamTracks
carries only the track list: MediaStreamTrack.stop never throws, matching
the absence of a try/catch around that step in the source.  audioSources
is the active playback handle set, each handle an id paired with a
stop-throws flag.  nextStartTime is nextStartTimeRef. -/
structure AudioSessionRefs where
  liveSession : Option Bool := none
  localStreamTracks : Option (List Unit) := none
  scriptProcessor : Option Bool := none
  mediaStreamSource : Option Bool := none
  inputAudioContext : Option Bool := none
  audioSources : List (Nat × Bool) := []
  outputAudioContext : Option Bool := none
  nextStartTime : ℚ := 0
  isRecording : Bool := false
  isNpcSpeaking : Bool := false
deriving DecidableEq, Repr

/-- Result of one cleanupAudioAndSession invocation: the refs afterwards,
the caught-and-logged step failures in order, and the playback handles
that were actually stopped. -/
structure CleanupOutcome where
  refs : AudioSessionRefs
  logged : List CleanupErr
  stoppedHandles : List Nat
deriving DecidableEq, Repr

/-- The forEach stop loop over the active source set (part_000, line 186):
JavaScript forEach aborts at the first callback that throws, so handles
after the first throwing one are not stopped; the surrounding try/catch
absorbs the exception.  Returns the ids stopped and whether a throw
aborted the loop. -/
def stopSourcesLoop : List (Nat × Bool) → List Nat × Bool
  | [] => ([], false)
  | sf :: rest =>
      if sf.2 then ([], true)
      else
        let r := stopSourcesLoop rest
        (sf.1 :: r.1, r.2)

/-- Teardown routine, embedding cleanupAudioAndSession (part_000, lines
155-197) step by step: close the live session (try/catch, ref nulled),
stop the local stream tracks and null the ref, disconnect the script
processor (try/catch, ref nulled), disconnect the media stream source
(try/catch, ref nulled), close the input audio context (promise rejection
caught asynchronously, ref nulled), stop all audio sources (try/catch)
and clear the set, close the output audio context (same as input, ref
nulled), and reset the isRecording / isNpcSpeaking flags.  Every
ref-clearing statement in the source is unconditional, so the resulting
refs never depend on which steps threw.  nextStartTimeRef is not touched
by this routine. -/
def cleanupAudioAndSession (s : AudioSessionRefs) : CleanupOutcome :=
  let e1 : List CleanupErr :=
    match s.liveSession with
    | some true => [CleanupErr.closeLiveSession]
    | _ => []
  let e3 : List CleanupErr :=
    match s.scriptProcessor with
    | some true => [CleanupErr.disconnectScriptProcessor]
    | _ => []
  let e4 : List CleanupErr :=
    match s.mediaStreamSource with
    | some true => [CleanupErr.disconnectMediaStreamSource]
    | _ => []
  let e5 : List CleanupErr :=
    match s.inputAudioContext with
    | some true => [CleanupErr.closeInputCtx]
    | _ => []
  let stopRes := stopSourcesLoop s.audioSources
  let e6 : List CleanupErr := if stopRes.2 then [CleanupErr.stopAudioSources] else []
  let e7 : List CleanupErr :=
    match s.outputAudioContext with
    | some true => [CleanupErr.closeOutputCtx]
    | _ => []
  { refs :=
      { liveSession := none
        localStreamTracks := none
        scriptProcessor := none
        mediaStreamSource := none
        inputAudioContext := none
        audioSources := []
        outputAudioContext := none
        nextStartTime := s.nextStartTime
        isRecording := false
        isNpcSpeaking := false }
    logged := e1 ++ e3 ++ e4 ++ e5 ++ e6 ++ e7
    stoppedHandles := stopRes.1 }

/-- Fully released refs with a given nextStartTime: what every exit path
leaves behind. -/
def releasedRefs (nst : ℚ) : AudioSessionRefs :=
  { nextStartTime := nst }

/-- Audio setup performed at the start of handleBeginConversation
(part_000, lines 331-343): acquire the microphone stream, create the
input context and its nodes, create the output context, and reset
nextStartTimeRef.current to 0.  The Bool arguments are the
environment-determined teardown-failure flags of the freshly acquired
resources. -/
def beginConversationAudioSetup (s : AudioSessionRefs) (tracks : List Unit)
    (procFlag srcFlag inCtxFlag outCtxFlag : Bool) : AudioSessionRefs :=
  { s with
      localStreamTracks := some tracks
      scriptProcessor := some procFlag
      mediaStreamSource := some srcFlag
      inputAudioContext := some inCtxFlag
      outputAudioContext := some outCtxFlag
      nextStartTime := 0 }

/-- Action taken by the onClose callback of the live session. -/
inductive CloseAction
  | endConversationFlow
  | teardownOnly
deriving DecidableEq, Repr

/-- Remote-close handler, embedding the onClose callback (part_000, lines
375-382).  The status it compares with Active is the React state value
captured by the closure when handleBeginConversation ran, not the status
at the time the close event arrives: the callback is created before
setStatus(Ready) and setStatus(Active) take effect, and a closure over a
useState value never sees later updates. -/
def onCloseHandler (capturedStatus : ConversationStatus) : CloseAction :=
  if capturedStatus = ConversationStatus.active then CloseAction.endConversationFlow
  else CloseAction.teardownOnly

/-- Observable outcome of one handleEndConversation invocation: the
setStatus writes in program order, whether summarizeConversation was
called, and how many times cleanupAudioAndSession ran. -/
structure EndConversationOutcome where
  statusWrites : List ConversationStatus
  summarizeCalled : Bool
  cleanupRuns : Nat
deriving DecidableEq, Repr

/-- End-of-conversation flow, embedding handleEndConversation (part_000,
lines 271-318) together with the handleCloseRehearsal shortcut it calls
(lines 224-240).  Guard: a reentrant call while already Summarizing
returns at once.  Otherwise the flow writes Summarizing, runs cleanup,
and, when the scenario is absent or the transcript is empty, runs
handleCloseRehearsal (which runs cleanup again and writes Idle) without
ever calling summarizeConversation.  With a nonempty transcript it calls
summarizeConversation, then writes PausedForFeedback on success or Error
on failure. -/
def handleEndConversation (status : ConversationStatus) (scn : Option ScenarioData)
    (transcript : List Transcript) (summarySucceeds : Bool) : EndConversationOutcome :=
  if status = ConversationStatus.summarizing then ⟨[], false, 0⟩
  else if scn.isNone ∨ transcript.isEmpty then
    ⟨[ConversationStatus.summarizing, ConversationStatus.idle], false, 2⟩
  else if summarySucceeds then
    ⟨[ConversationStatus.summarizing, ConversationStatus.pausedForFeedback], true, 1⟩
  else
    ⟨[ConversationStatus.summarizing, ConversationStatus.error], true, 1⟩

/-- Status committed by React after the handler finishes: the last
setStatus write of the batch, or the starting status when the handler
wrote nothing. -/
def committedStatus (start : ConversationStatus) (o : EndConversationOutcome) :
    ConversationStatus :=
  o.statusWrites.getLast?.getD start

/-- Values closed over by the inactivity timer callback when
startInactivityTimer arms it (part_000, lines 658-667): the status,
scenario and transcript React values from the render that created the
callback. -/
structure WatchdogCaptured where
  status : ConversationStatus
  scnOpt : Option ScenarioData
  transcript : List Transcript
deriving DecidableEq, Repr

/-- Timer fire callback, embedding the setTimeout body of
startInactivityTimer (part_000, lines 660-666): if the captured status is
Active and a scenario is captured, it calls generateHint on the scenario
and the final entries of the captured transcript; otherwise it does
nothing.  The returned value is the issued hint request, if any.  Note
that the callback consults only the captured values: it reads no state at
fire time. -/
def inactivityTimerOnFire (c : WatchdogCaptured) :
    Option (ScenarioData × List Transcript) :=
  match c.scnOpt with
  | some scn =>
      if c.status = ConversationStatus.active then
        some (scn, c.transcript.filter (fun t => t.isFinal))
      else none
  | none => none

/-- Modelled from the spec: the fire-time gate the specification claims
for the watchdog, namely that at fire time the session is still Active
and the user is neither recording nor receiving agent audio.  Stated for
comparison with the fire callback the code actually installs. -/
def specWatchdogFireGate (status : ConversationStatus) (isRecording isNpcSpeaking : Bool) :
    Prop :=
  status = ConversationStatus.active ∧ isRecording = false ∧ isNpcSpeaking = false

/-- Watchdog arming effect, embedding the useEffect at part_000, lines
670-678: whenever status, isNpcSpeaking or isRecording changes, the
effect re-runs; if the session is Active and neither recording nor agent
audio is in progress it re-arms the timer (capturing the current render
values), otherwise it clears any pending timer.  The result is the timer
ref afterwards: the captured environment of the armed timer, or none when
cleared. -/
def watchdogEffect (status : ConversationStatus) (isNpcSpeaking isRecording : Bool)
    (scnOpt : Option ScenarioData) (transcript : List Transcript) :
    Option WatchdogCaptured :=
  if status = ConversationStatus.active ∧ isNpcSpeaking = false ∧ isRecording = false then
    some ⟨status, scnOpt, transcript⟩
  else none

/-- Truncation toward zero of a rational, as the ECMAScript
ToIntegerOrInfinity step applied to a finite value: Int.div is the
toward-zero integer division, and a rational is stored with a positive
denominator. -/
def ratTrunc (x : ℚ) : ℤ :=
  Int.tdiv x.num x.den

/-- The ECMAScript ToInt16 wrap applied to a truncated value: reduce
modulo 2 ^ 16 into the range 0 to 65535 (Int emod), then shift the upper
half down by 65536 to land in -32768 to 32767.  This is what storing into
an Int16Array performs. -/
def jsToInt16 (n : ℤ) : ℤ :=
  let m := n % 65536
  if 32768 ≤ m then m - 65536 else m

/-- Sample conversion of createBlob (geminiService.ts, lines 22-32): each
normalized sample x is stored as the Int16Array element x * 32768, with
no clamping of x before scaling; the store truncates and wraps per
ToInt16. -/
def createBlobInt16s (data : List ℚ) : List ℤ :=
  data.map (fun x => jsToInt16 (ratTrunc (x * 32768)))

/-- Little-endian byte pair of a stored Int16 value, as exposed by
viewing the Int16Array buffer as a Uint8Array inside createBlob. -/
def int16ToBytesLE (v : ℤ) : List ℕ :=
  [(v % 65536).toNat % 256, (v % 65536).toNat / 256]

/-- Wire bytes produced by createBlob for a frame, before the base64
transport encoding (the encode helper is injective transport and is not
modelled). -/
def createBlobBytes (data : List ℚ) : List ℕ :=
  ((createBlobInt16s data).map int16ToBytesLE).flatten

/-- Reading of a byte buffer as an Int16Array (new Int16Array(data.buffer)
inside decodeAudioData): consecutive little-endian byte pairs decoded as
two-complement 16-bit values; a trailing odd byte is dropped, as the
typed-array view truncates to whole elements. -/
def bytesToInt16sLE : List ℕ → List ℤ
  | b0 :: b1 :: rest =>
      (if 32768 ≤ b0 + 256 * b1 then ((b0 + 256 * b1 : ℕ) : ℤ) - 65536
       else ((b0 + 256 * b1 : ℕ) : ℤ)) :: bytesToInt16sLE rest
  | _ => []

/-- Sample decoding of decodeAudioData (part_000, lines 50-67): the byte
buffer is read as Int16 values, frameCount is the element count divided
by the channel count, and channel ch sample i is element
i * numChannels + ch divided by 32768.  The AudioContext and sample rate
arguments of the source only label the produced buffer and are omitted.
Returns one sample list per channel. -/
def decodeAudioData (data : List ℕ) (numChannels : ℕ) : List (List ℚ) :=
  let ints := bytesToInt16sLE data
  let frameCount := ints.length / numChannels
  (List.range numChannels).map (fun ch =>
    (List.range frameCount).map (fun i =>
      ((ints.getD (i * numChannels + ch) 0 : ℤ) : ℚ) / 32768))

/-! Concrete inputs used by the claim witnesses and counterexamples. -/

/-- Fragment (user, Bon, not final) of the spec example P2. -/
def fragBon : Transcript := ⟨Speaker.user, "Bon", false, none⟩

/-- Fragment (user, jour, not final) of the spec example P2. -/
def fragJour : Transcript := ⟨Speaker.user, "jour", false, none⟩

/-- Fragment (agent, Hi, not final) of the spec example P2; the agent
speaker is npc in the source. -/
def fragHi : Transcript := ⟨Speaker.npc, "Hi", false, none⟩

/-- Fragment (user, Merci, not final) of the spec example P2. -/
def fragMerci : Transcript := ⟨Speaker.user, "Merci", false, none⟩

/-- Two concrete inbound chunks (clock reading, duration) for the
scheduler witness. -/
def demoChunks : List (ℚ × ℚ) := [(0, 1), (0, 2)]

/-- Concrete outbound trace: two frames captured while the channel is
still connecting, then the channel-ready resolution, then one more
frame. -/
def demoEvents : List (OutboundEvent ℕ) :=
  [OutboundEvent.capture 1, OutboundEvent.capture 2, OutboundEvent.channelReady,
   OutboundEvent.capture 3]

/-- Concrete scenario value for the watchdog and end-conversation
witnesses. -/
def scnDemo : ScenarioData := ⟨"Cafe de Flore", "Order a coffee", "A Paris cafe"⟩

/-- Fully acquired session refs, with some teardown steps set to throw,
for the reaper witness. -/
def demoRefs : AudioSessionRefs :=
  { liveSession := some true
    localStreamTracks := some [()]
    scriptProcessor := some false
    mediaStreamSource := some true
    inputAudioContext := some false
    audioSources := [(1, false), (2, true), (3, false)]
    outputAudioContext := some false
    nextStartTime := 7
    isRecording := true
    isNpcSpeaking := true }

/-- Session refs mid-playback with a nonzero nextStartTime, for the
teardown counterexample. -/
def c8Refs : AudioSessionRefs :=
  { audioSources := [(1, false)], outputAudioContext := some false, nextStartTime := 5 }

/-! Theorems.  Helper lemmas come first; each claim is settled by one
named theorem, with a witness or counterexample where applicable. -/

/-- Length of the scheduled start list equals the chunk count. -/
theorem scheduleStarts_length (nst : ℚ) (l : List (ℚ × ℚ)) :
    (scheduleStarts nst l).length = l.length := by
  induction l generalizing nst with
  | nil => rfl
  | cons cd rest ih => simp [scheduleStarts, ih]

/-- Every scheduled start is at least the clock reading at its own
scheduling step. -/
theorem scheduleStarts_clock_le (l : List (ℚ × ℚ)) (nst : ℚ) (i : ℕ) (h : i < l.length) :
    (l.getD i (0, 0)).1 ≤ (scheduleStarts nst l).getD i 0 := by
  induction l generalizing nst i with
  | nil => simp at h
  | cons cd rest ih =>
    cases i with
    | zero => simp [scheduleStarts]
    | succ n =>
      have hn : n < rest.length := by simpa using h
      simpa [scheduleStarts] using ih _ n hn

/-- Recurrence of the scheduled starts: each start is exactly the maximum
of the previous start plus its duration and the clock reading at its own
scheduling step. -/
theorem scheduleStarts_succ (l : List (ℚ × ℚ)) (nst : ℚ) (i : ℕ) (h : i + 1 < l.length) :
    (scheduleStarts nst l).getD (i + 1) 0
      = max ((scheduleStarts nst l).getD i 0 + (l.getD i (0, 0)).2)
          ((l.getD (i + 1) (0, 0)).1) := by
  induction l generalizing nst i with
  | nil => simp at h
  | cons cd rest ih =>
    cases i with
    | zero =>
      cases rest with
      | nil => simp at h
      | cons cd2 rest2 => simp [scheduleStarts]
    | succ n =>
      have hn : n + 1 < rest.length := by simpa using h
      simpa [scheduleStarts] using ih _ n hn

/-- C1: for the chunk sequence scheduled by playAudioChunk, with clock
readings c i and durations d i, every start satisfies s i ≥ c i (in
particular the first start is at least the current clock), and each later
start equals max (previous start + previous duration) (current clock), so
it is at least the end of the previous chunk (no overlap) and, for
nonnegative durations, at least the previous start (no reordering). -/
theorem c1_playback_scheduler_invariant (nst : ℚ) (chunks : List (ℚ × ℚ)) (i : ℕ) :
    (i < chunks.length → (chunks.getD i (0, 0)).1 ≤ (scheduleStarts nst chunks).getD i 0) ∧
    (i + 1 < chunks.length →
      (scheduleStarts nst chunks).getD (i + 1) 0
        = max ((scheduleStarts nst chunks).getD i 0 + (chunks.getD i (0, 0)).2)
            ((chunks.getD (i + 1) (0, 0)).1) ∧
      (scheduleStarts nst chunks).getD i 0 + (chunks.getD i (0, 0)).2
        ≤ (scheduleStarts nst chunks).getD (i + 1) 0 ∧
      (0 ≤ (chunks.getD i (0, 0)).2 →
        (scheduleStarts nst chunks).getD i 0 ≤ (scheduleStarts nst chunks).getD (i + 1) 0)) := by
  refine ⟨fun h => scheduleStarts_clock_le chunks nst i h, fun h => ?_⟩
  have he := scheduleStarts_succ chunks nst i h
  refine ⟨he, ?_, ?_⟩
  · rw [he]
    exact le_max_left _ _
  · intro hd
    rw [he]
    have h1 := le_max_left ((scheduleStarts nst chunks).getD i 0 + (chunks.getD i (0, 0)).2)
      ((chunks.getD (i + 1) (0, 0)).1)
    linarith

/-- Witness for C1 at the concrete two-chunk input demoChunks. -/
theorem c1_playback_witness :
    (scheduleStarts 0 demoChunks).getD 1 0
      = max ((scheduleStarts 0 demoChunks).getD 0 0 + (demoChunks.getD 0 (0, 0)).2)
          ((demoChunks.getD 1 (0, 0)).1) :=
  ((c1_playback_scheduler_invariant 0 demoChunks 0).2 (by simp [demoChunks])).1

/-- C2: the reconciler concatenates the fragment text onto the last entry
exactly when that entry exists with the same speaker and isFinal false,
and otherwise appends a new entry; the turn-boundary handler finalizes
every entry, so the next fragment always starts a new entry; the concrete
fragments of spec example P2 behave as claimed. -/
theorem c2_transcript_reconciler (prev : List Transcript) (lastEntry nt : Transcript) :
    (prev.getLast? = some lastEntry → lastEntry.speaker = nt.speaker →
      lastEntry.isFinal = false →
      onTranscriptUpdate prev nt
        = prev.dropLast ++ [{ lastEntry with text := lastEntry.text ++ nt.text }]) ∧
    ((∀ e, prev.getLast? = some e → ¬(e.speaker = nt.speaker ∧ e.isFinal = false)) →
      onTranscriptUpdate prev nt = prev ++ [nt]) ∧
    (∀ e ∈ onTurnComplete prev, e.isFinal = true) ∧
    (prev ≠ [] → onTranscriptUpdate (onTurnComplete prev) nt = onTurnComplete prev ++ [nt]) ∧
    (onTranscriptUpdate (onTranscriptUpdate (onTranscriptUpdate [] fragBon) fragJour) fragHi
        = [⟨Speaker.user, "Bonjour", false, none⟩, ⟨Speaker.npc, "Hi", false, none⟩] ∧
      onTranscriptUpdate
          (onTurnComplete
            (onTranscriptUpdate (onTranscriptUpdate (onTranscriptUpdate [] fragBon) fragJour)
              fragHi))
          fragMerci
        = [⟨Speaker.user, "Bonjour", true, none⟩, ⟨Speaker.npc, "Hi", true, none⟩,
           ⟨Speaker.user, "Merci", false, none⟩]) := by
  refine ⟨?_, ?_, ?_, ?_, by decide, by decide⟩
  · intro h1 h2 h3
    simp [onTranscriptUpdate, h1, h2, h3]
  · intro hno
    cases hl : prev.getLast? with
    | none => simp [onTranscriptUpdate, hl]
    | some e =>
      have hne := hno e hl
      simp [onTranscriptUpdate, hl, hne]
  · intro e he
    simp only [onTurnComplete, List.mem_map] at he
    obtain ⟨a, -, rfl⟩ := he
    rfl
  · intro hne
    have hmap : onTurnComplete prev ≠ [] := by
      simpa [onTurnComplete] using hne
    have he := List.getLast?_eq_getLast_of_ne_nil hmap
    set e := (onTurnComplete prev).getLast hmap with hedef
    have hmem : e ∈ onTurnComplete prev := List.getLast_mem hmap
    have hfin : e.isFinal = true := by
      simp only [onTurnComplete, List.mem_map] at hmem
      obtain ⟨a, -, ha⟩ := hmem
      rw [← ha]
    have hcond : ¬(e.speaker = nt.speaker ∧ e.isFinal = false) := by
      rintro ⟨-, hf⟩
      rw [hfin] at hf
      cases hf
    simp [onTranscriptUpdate, he, hcond]

/-- Witness for C2: concatenation case at a concrete one-entry
transcript. -/
theorem c2_reconciler_witness :
    onTranscriptUpdate [fragBon] fragJour
      = List.dropLast [fragBon] ++ [{ fragBon with text := fragBon.text ++ fragJour.text }] :=
  (c2_transcript_reconciler [fragBon] fragBon fragJour).1 rfl rfl rfl

/-- Capture step when the channel promise is already resolved: the frame
goes straight to the delivered list. -/
theorem outboundStep_capture_of_ready {α : Type} (s : OutboundState α) (f : α)
    (hr : s.ready = true) :
    outboundStep s (OutboundEvent.capture f) = { s with delivered := s.delivered ++ [f] } := by
  simp [outboundStep, hr]

/-- Capture step while the channel promise is unresolved: the frame is
queued on the promise. -/
theorem outboundStep_capture_of_not_ready {α : Type} (s : OutboundState α) (f : α)
    (hr : s.ready = false) :
    outboundStep s (OutboundEvent.capture f)
      = { s with pendingThens := s.pendingThens ++ [f] } := by
  simp [outboundStep, hr]

/-- Main outbound invariant: along any trace, delivered frames followed
by still-queued frames equal the captured frames in capture order, and
once the promise is resolved the queue is empty. -/
theorem outbound_invariant {α : Type} (evs : List (OutboundEvent α)) (s : OutboundState α)
    (hs : s.ready = true → s.pendingThens = []) :
    ((evs.foldl outboundStep s).delivered ++ (evs.foldl outboundStep s).pendingThens
      = s.delivered ++ s.pendingThens ++ capturedFrames evs) ∧
    ((evs.foldl outboundStep s).ready = true → (evs.foldl outboundStep s).pendingThens = []) := by
  induction evs generalizing s with
  | nil => exact ⟨by simp [capturedFrames], hs⟩
  | cons e rest ih =>
    cases e with
    | capture f =>
      by_cases hr : s.ready = true
      · have hp := hs hr
        have h2 := ih { s with delivered := s.delivered ++ [f] } (fun _ => hp)
        rw [List.foldl_cons, outboundStep_capture_of_ready s f hr]
        refine ⟨?_, h2.2⟩
        rw [h2.1]
        simp [capturedFrames, hp]
      · have hrf : s.ready = false := Bool.not_eq_true s.ready ▸ hr
        have h2 := ih { s with pendingThens := s.pendingThens ++ [f] }
          (fun hh => absurd hh (by simp [hrf]))
        rw [List.foldl_cons, outboundStep_capture_of_not_ready s f hrf]
        refine ⟨?_, h2.2⟩
        rw [h2.1]
        simp [capturedFrames]
    | channelReady =>
      have h2 := ih ⟨true, [], s.delivered ++ s.pendingThens⟩ (fun _ => rfl)
      rw [List.foldl_cons]
      refine ⟨?_, h2.2⟩
      rw [show outboundStep s OutboundEvent.channelReady
            = ⟨true, [], s.delivered ++ s.pendingThens⟩ from rfl, h2.1]
      simp [capturedFrames]

/-- Resolution is permanent: once ready, the outbound state stays
ready. -/
theorem outbound_ready_mono {α : Type} (evs : List (OutboundEvent α)) (s : OutboundState α)
    (h : s.ready = true) : (evs.foldl outboundStep s).ready = true := by
  induction evs generalizing s with
  | nil => exact h
  | cons e rest ih =>
    cases e with
    | capture f =>
      rw [List.foldl_cons, outboundStep_capture_of_ready s f h]
      exact ih _ h
    | channelReady =>
      rw [List.foldl_cons]
      exact ih _ rfl

/-- A trace containing the channel-ready resolution ends ready. -/
theorem outbound_ready_after {α : Type} (evs : List (OutboundEvent α)) (s : OutboundState α)
    (h : OutboundEvent.channelReady ∈ evs) : (evs.foldl outboundStep s).ready = true := by
  induction evs generalizing s with
  | nil => simp at h
  | cons e rest ih =>
    rw [List.foldl_cons]
    by_cases he : OutboundEvent.channelReady ∈ rest
    · exact ih _ he
    · have heq : e = OutboundEvent.channelReady := by
        rcases List.mem_cons.mp h with h1 | h1
        · exact h1.symm
        · exact absurd h1 he
      subst heq
      exact outbound_ready_mono rest _ rfl

/-- C3: along every trace of the outbound path, the delivered frames
followed by the frames still queued on the channel-ready promise are
exactly the captured frames in capture order (no loss, no reordering),
and once the trace contains the channel-ready resolution every captured
frame has been delivered, in capture order. -/
theorem c3_outbound_frame_order {α : Type} (evs : List (OutboundEvent α)) :
    (outboundRun evs).delivered ++ (outboundRun evs).pendingThens = capturedFrames evs ∧
    (OutboundEvent.channelReady ∈ evs → (outboundRun evs).delivered = capturedFrames evs) := by
  have h := outbound_invariant evs ⟨false, [], []⟩ (fun _ => rfl)
  constructor
  · simpa [outboundRun] using h.1
  · intro hm
    have hr : (evs.foldl outboundStep (⟨false, [], []⟩ : OutboundState α)).ready = true :=
      outbound_ready_after evs _ hm
    have hp := h.2 hr
    have h1 := h.1
    rw [hp, List.append_nil] at h1
    simpa [outboundRun] using h1

/-- Witness for C3 at the concrete trace demoEvents, whose first two
frames are captured before the channel resolves. -/
theorem c3_outbound_witness : (outboundRun demoEvents).delivered = capturedFrames demoEvents :=
  (c3_outbound_frame_order demoEvents).2 (by decide)

/-- C4: cleanupAudioAndSession is total on every refs state: whatever
resources are present or absent and whatever teardown calls throw, every
step runs (each failure only adds a log entry and never skips the later
steps, matching the per-step try/catch structure of the source), the
resulting refs are fully released, and a second invocation on the
already-released refs succeeds as a silent no-op that logs nothing and
leaves everything released. -/
theorem c4_cleanup_total_idempotent (s : AudioSessionRefs) :
    (cleanupAudioAndSession s).refs = releasedRefs s.nextStartTime ∧
    cleanupAudioAndSession (cleanupAudioAndSession s).refs
      = ⟨releasedRefs s.nextStartTime, [], []⟩ :=
  ⟨rfl, rfl⟩

/-- Witness for C4 at the fully acquired refs demoRefs, some of whose
teardown calls throw. -/
theorem c4_cleanup_witness : (cleanupAudioAndSession demoRefs).refs = releasedRefs 7 :=
  (c4_cleanup_total_idempotent demoRefs).1

/-- C5 (code bug): the status the onClose callback compares with Active
is the closure-captured value from the render in which
handleBeginConversation ran, which is Briefing for a fresh start and
PausedForFeedback for a continue, never Active (the transition to Active
happens only after the callback is created).  Hence a remote close that
arrives while the session is in fact Active takes the teardown-only
branch and never the end-conversation flow the claim describes. -/
theorem c5_onclose_stale_status :
    onCloseHandler ConversationStatus.briefing = CloseAction.teardownOnly ∧
    onCloseHandler ConversationStatus.pausedForFeedback = CloseAction.teardownOnly ∧
    CloseAction.teardownOnly ≠ CloseAction.endConversationFlow := by
  decide

/-- C6 counterexample: at a fire-time state in which the user is
recording, the claim requires the callback to do nothing, but the
installed callback, which consults only the captured status and scenario,
still issues a hint request. -/
theorem c6_watchdog_counterexample :
    (inactivityTimerOnFire ⟨ConversationStatus.active, some scnDemo, []⟩).isSome = true ∧
    ¬ specWatchdogFireGate ConversationStatus.active true false := by
  refine ⟨rfl, ?_⟩
  simp [specWatchdogFireGate]

/-- C6 amended: the fire callback issues a hint exactly when the captured
status is Active and a scenario was captured, independent of the
recording and agent-audio state at fire time; the not-recording and
no-agent-audio conditions are enforced instead by the arming effect,
which clears the timer whenever the idle-within-Active condition fails. -/
theorem c6_watchdog_amended (c : WatchdogCaptured) (status : ConversationStatus)
    (npcSpeaking recording : Bool) (scnOpt : Option ScenarioData) (tr : List Transcript) :
    ((inactivityTimerOnFire c).isSome = true ↔
      c.status = ConversationStatus.active ∧ c.scnOpt.isSome = true) ∧
    (¬(status = ConversationStatus.active ∧ npcSpeaking = false ∧ recording = false) →
      watchdogEffect status npcSpeaking recording scnOpt tr = none) := by
  constructor
  · cases hs : c.scnOpt with
    | none => simp [inactivityTimerOnFire, hs]
    | some scn =>
      by_cases ha : c.status = ConversationStatus.active <;>
        simp [inactivityTimerOnFire, hs, ha]
  · intro h
    simp [watchdogEffect, h]

/-- Witness for C6 amended: the arming effect clears the timer while the
user is recording. -/
theorem c6_watchdog_amended_witness :
    watchdogEffect ConversationStatus.active false true (some scnDemo) [] = none :=
  (c6_watchdog_amended ⟨ConversationStatus.active, some scnDemo, []⟩ ConversationStatus.active
    false true (some scnDemo) []).2 (by decide)

/-- C7: ending a conversation with zero transcript entries never calls
summarizeConversation, commits Idle as the resulting status, and never
enters the feedback state.  Both setStatus writes of this path happen in
one synchronous handler invocation with no await between them, so React
commits them as a single transition whose result is Idle. -/
theorem c7_empty_transcript_shortcut (status : ConversationStatus) (scn : Option ScenarioData)
    (summarySucceeds : Bool) (h : status ≠ ConversationStatus.summarizing) :
    (handleEndConversation status scn [] summarySucceeds).summarizeCalled = false ∧
    committedStatus status (handleEndConversation status scn [] summarySucceeds)
      = ConversationStatus.idle ∧
    ConversationStatus.pausedForFeedback
      ∉ (handleEndConversation status scn [] summarySucceeds).statusWrites := by
  have hne : handleEndConversation status scn [] summarySucceeds
      = ⟨[ConversationStatus.summarizing, ConversationStatus.idle], false, 2⟩ := by
    unfold handleEndConversation
    rw [if_neg h,
      if_pos (show scn.isNone = true ∨ ([] : List Transcript).isEmpty = true from Or.inr rfl)]
  rw [hne]
  exact ⟨rfl, rfl, by decide⟩

/-- Witness for C7 at a concrete Active session with a scenario and an
empty transcript. -/
theorem c7_empty_transcript_witness :
    committedStatus ConversationStatus.active
        (handleEndConversation ConversationStatus.active (some scnDemo) [] true)
      = ConversationStatus.idle :=
  (c7_empty_transcript_shortcut ConversationStatus.active (some scnDemo) true (by decide)).2.1

/-- C8 counterexample: on refs with nextStartTime 5, the teardown
stop-all clears the active-handle set but leaves nextStartTime at 5, not
0, refuting the reset-to-zero part of the claim. -/
theorem c8_teardown_counterexample :
    (cleanupAudioAndSession c8Refs).refs.nextStartTime = 5 ∧
    (cleanupAudioAndSession c8Refs).refs.audioSources = [] ∧
    (5 : ℚ) ≠ 0 :=
  ⟨rfl, rfl, by norm_num⟩

/-- Stop loop over sources none of which throw: every handle is stopped,
in set order, and the loop is not aborted. -/
theorem stopSourcesLoop_of_no_throw (l : List (Nat × Bool))
    (h : ∀ p ∈ l, p.2 = false) :
    stopSourcesLoop l = (l.map Prod.fst, false) := by
  induction l with
  | nil => rfl
  | cons p rest ih =>
    have hp := h p (List.mem_cons_self p rest)
    have hr := ih (fun q hq => h q (List.mem_cons_of_mem p hq))
    simp [stopSourcesLoop, hp, hr]

/-- C8 amended: the teardown stop-all stops every outstanding playback
handle (when no stop call throws) and clears the active-handle set, but
it does not reset nextStartTime, which it leaves unchanged;
nextStartTime is reset to 0 by the audio setup of the next
handleBeginConversation instead. -/
theorem c8_teardown_amended (s : AudioSessionRefs) (tracks : List Unit)
    (procFlag srcFlag inCtxFlag outCtxFlag : Bool)
    (h : ∀ p ∈ s.audioSources, p.2 = false) :
    (cleanupAudioAndSession s).stoppedHandles = s.audioSources.map Prod.fst ∧
    (cleanupAudioAndSession s).refs.audioSources = [] ∧
    (cleanupAudioAndSession s).refs.nextStartTime = s.nextStartTime ∧
    (beginConversationAudioSetup s tracks procFlag srcFlag inCtxFlag outCtxFlag).nextStartTime
      = 0 := by
  refine ⟨?_, rfl, rfl, rfl⟩
  show (stopSourcesLoop s.audioSources).1 = s.audioSources.map Prod.fst
  rw [stopSourcesLoop_of_no_throw s.audioSources h]

/-- Witness for C8 amended at the concrete refs c8Refs. -/
theorem c8_teardown_amended_witness :
    (cleanupAudioAndSession c8Refs).stoppedHandles = c8Refs.audioSources.map Prod.fst :=
  (c8_teardown_amended c8Refs [] false false false false (by decide)).1

/-- C9: createBlob maps each sample x to ToInt16 of the truncation of
x * 32768 with no prior clamping: at the out-of-range sample 3/2 (above
1), the scaled value 49152 wraps modulo 2 ^ 16 to the stored wire value
-16384 (congruent to 49152 modulo 65536) instead of saturating to the
extreme 32767. -/
theorem c9_createblob_no_clamp_wraps :
    createBlobInt16s [(3 : ℚ)/2] = [-16384] ∧
    ratTrunc ((3 : ℚ)/2 * 32768) = 49152 ∧
    (-16384 : ℤ) % 65536 = 49152 % 65536 ∧
    (1 : ℚ) < (3 : ℚ)/2 ∧
    (-16384 : ℤ) ≠ 32767 := by
  refine ⟨?_, ?_, by decide, by norm_num, by decide⟩
  · norm_num [createBlobInt16s, jsToInt16, ratTrunc]
  · norm_num [ratTrunc]

/-- Truncation of an integer cast to the rationals is the integer
itself. -/
theorem ratTrunc_intCast (n : ℤ) : ratTrunc (n : ℚ) = n := by
  simp [ratTrunc, Rat.num_intCast, Rat.den_intCast, Int.tdiv_one]

/-- ToInt16 is the identity on the representable range. -/
theorem jsToInt16_of_range (n : ℤ) (h1 : -32768 ≤ n) (h2 : n ≤ 32767) : jsToInt16 n = n := by
  unfold jsToInt16
  dsimp only
  split <;> omega

/-- Little-endian byte encoding of an in-range Int16 value decodes back
to the value. -/
theorem bytes_roundtrip_int16 (n : ℤ) (h1 : -32768 ≤ n) (h2 : n ≤ 32767) :
    bytesToInt16sLE (int16ToBytesLE n) = [n] := by
  have hu : (n % 65536).toNat % 256 + 256 * ((n % 65536).toNat / 256) = (n % 65536).toNat :=
    Nat.mod_add_div _ _
  simp only [int16ToBytesLE, bytesToInt16sLE, hu]
  split <;> (rw [List.cons.injEq]; exact ⟨by omega, rfl⟩)

/-- C10: decodeAudioData is a left inverse of createBlob at 16-bit
precision: for every sample x whose scaled value x * 32768 is an integer
in the representable range, decoding the bytes createBlob produces for
the one-sample mono frame recovers exactly x. -/
theorem c10_decode_inverts_createblob (x : ℚ) (n : ℤ) (hx : x * 32768 = (n : ℚ))
    (h1 : -32768 ≤ n) (h2 : n ≤ 32767) :
    decodeAudioData (createBlobBytes [x]) 1 = [[x]] := by
  have hj : jsToInt16 (ratTrunc (x * 32768)) = n := by
    rw [hx, ratTrunc_intCast]
    exact jsToInt16_of_range n h1 h2
  have hb : createBlobBytes [x] = int16ToBytesLE n := by
    simp [createBlobBytes, createBlobInt16s, hj]
  rw [hb]
  have hr := bytes_roundtrip_int16 n h1 h2
  have hxn : ((n : ℤ) : ℚ) / 32768 = x := by
    rw [eq_comm, eq_div_iff (by norm_num : (32768 : ℚ) ≠ 0)]
    exact hx
  simp [decodeAudioData, hr, List.range_succ, hxn]

/-- Witness for C10 at the concrete in-range sample 1/2, whose scaled
value is 16384. -/
theorem c10_decode_witness :
    decodeAudioData (createBlobBytes [(1 : ℚ)/2]) 1 = [[(1 : ℚ)/2]] :=
  c10_decode_inverts_createblob ((1 : ℚ)/2) 16384 (by norm_num) (by decide) (by decide)

end Rehearsal
